import Mathlib

/-!
Verification of the `uncertainty-classification-tabular-data` repository.

This file gives a shallow embedding, in Lean 4, of the two source files

  * `unc_classification_tab_data/models/mlp.py`
  * `unc_classification_tab_data/utils/visualizing_utils.py`

and proves (or refutes) the specification claims about them.

Modelling conventions:

  * Machine floats are idealised as the rationals `ℚ`; the only
    irrational quantity produced by the code (`np.std`, a square root)
    is represented in `ℝ` via `Real.sqrt` of a rational variance.
  * Fallible code paths (a Python `IndexError` / `NameError`) are
    represented with `Option`: `none` means the call raises.
  * Functions imported from `unc_classification_tab_data.utils.modeling_utils`
    (a file of this repository that is not part of the sources given here,
    namely `entropy` and `platt_scale`) and the metric functions passed in by
    callers (`sklearn` metrics) are taken as explicit parameters of the
    embedded operations; the claims under study only constrain which
    arguments they receive and where their results are stored.
-/

namespace UncTab

/-! ## Embedding of `models/mlp.py` -/

/-- A layer of the torch `nn.Sequential` built by `MLPModule.__init__`:
`nn.Linear(inFeatures, outFeatures)`, `nn.BatchNorm1d(numFeatures)`,
`nn.ReLU()` or `nn.Dropout(rate)`. -/
inductive Layer where
  | linear (inFeatures outFeatures : ℕ)
  | batchNorm (numFeatures : ℕ)
  | relu
  | dropout (rate : ℚ)
deriving DecidableEq, Repr

/-- The body of one hidden block appended by `MLPModule.__init__`
(a linear layer, optionally batch norm, ReLU, dropout). -/
def hiddenBlock (inF outF : ℕ) (dropout_rate : ℚ) (do_batch_norm : Bool) : List Layer :=
  [Layer.linear inF outF]
    ++ (if do_batch_norm then [Layer.batchNorm outF] else [])
    ++ [Layer.relu, Layer.dropout dropout_rate]

/-- Embeds `MLPModule.__init__` (mlp.py lines 28-49): the list of layers of the
`nn.Sequential`.  The first block is added only when `hidden_sizes` is
non-empty; the loop `for i in range(1, len(hidden_sizes))` adds the middle
blocks; the final unconditional line
`layers.append(nn.Linear(hidden_sizes[-1], output_size))` indexes
`hidden_sizes[-1]`, which raises an `IndexError` on an empty list; the
result is therefore `none` exactly when `hidden_sizes = []`. -/
def mlpModuleLayers (hidden_sizes : List ℕ) (input_size : ℕ) (dropout_rate : ℚ)
    (output_size : ℕ) (do_batch_norm : Bool) : Option (List Layer) :=
  let first : List Layer :=
    match hidden_sizes.head? with
    | some h0 => hiddenBlock input_size h0 dropout_rate do_batch_norm
    | none => []
  let middle : List Layer :=
    (List.range' 1 (hidden_sizes.length - 1)).foldl
      (fun acc i =>
        acc ++ hiddenBlock (hidden_sizes.getD (i - 1) 0) (hidden_sizes.getD i 0)
          dropout_rate do_batch_norm) []
  match hidden_sizes.getLast? with
  | none => none
  | some last => some (first ++ middle ++ [Layer.linear last output_size])

/-- Embeds `MLP.get_loss_fn` (mlp.py lines 147-175): the positive-class weight
`pos_weight` handed to `BCEWithLogitsLoss`, as a function of the
`class_weight` flag of the trainer and the batch label mean `mean_y`.
The branches mirror the source exactly: with class weighting, mean `0`
gives weight `0`, mean `1` gives weight `1` and otherwise the weight is
`(1 - mean_y) / mean_y`; without class weighting the weight is `1`. -/
def get_loss_fn (class_weight : Bool) (mean_y : ℚ) : ℚ :=
  if class_weight then
    if mean_y = 0 then 0
    else if mean_y = 1 then 1
    else (1 - mean_y) / mean_y
  else 1

/-- Embeds the early-stopping update of `MLP.train` (mlp.py lines 241-245):
given this epoch's validation loss, the retained `prev_val_loss`
(`none` encodes the initial `float('inf')`) and the counter
`n_no_improvement`, return the updated `(n_no_improvement, prev_val_loss)`.
The source increments only on `val_loss > prev_val_loss`; every other
outcome (strictly better or exactly equal) resets the counter to `0` and
overwrites `prev_val_loss` with the current loss. -/
def esStep (val_loss : ℚ) (prev : Option ℚ) (counter : ℕ) : ℕ × Option ℚ :=
  match prev with
  | none => (0, some val_loss)
  | some p => if p < val_loss then (counter + 1, some p) else (0, some val_loss)

/-- Modelled from the spec: the early-stopping update as the claim words it
("loss worse than or equal to previous best increments a no-improvement
counter; any strict improvement resets it to zero" and updates the retained
best).  Kept separate from `esStep`, the update the source actually
performs, so the two can be compared. -/
def esStepSpec (val_loss : ℚ) (prev : Option ℚ) (counter : ℕ) : ℕ × Option ℚ :=
  match prev with
  | none => (0, some val_loss)
  | some p => if p ≤ val_loss then (counter + 1, some p) else (0, some val_loss)

/-- Core loop of `MLP.train` (mlp.py lines 224-247), parametric in the
per-epoch update `step` so it can be run with the source's update
(`esStep`) or the claim's (`esStepSpec`).  The epoch body (mini-batch
gradient steps) only affects `val_losses`, the value `self.validate`
returns after each epoch, which is abstracted as a function of the epoch
index.  Arguments: remaining epochs (fuel), current epoch index,
`prev_val_loss`, `n_no_improvement`.  Returns the number of epochs whose
body was executed and whether the `break` was taken.  The guard
`if n_no_improvement >= early_stopping_patience: break` sits outside the
`if early_stopping:` block, exactly as in the source. -/
def trainGoWith (step : ℚ → Option ℚ → ℕ → ℕ × Option ℚ) (val_losses : ℕ → ℚ)
    (early_stopping : Bool) (patience : ℕ) :
    ℕ → ℕ → Option ℚ → ℕ → ℕ × Bool
  | 0, _, _, _ => (0, false)
  | fuel + 1, epoch, prev, counter =>
    let s : ℕ × Option ℚ :=
      if early_stopping then step (val_losses epoch) prev counter else (counter, prev)
    if patience ≤ s.1 then (1, true)
    else
      let r := trainGoWith step val_losses early_stopping patience fuel (epoch + 1) s.2 s.1
      (r.1 + 1, r.2)

/-- Embeds `MLP.train` (mlp.py lines 198-247): runs `n_epochs` epochs from the
initial state `prev_val_loss = inf`, `n_no_improvement = 0`, using the
source's early-stopping update.  Returns the number of executed epochs and
whether training halted through the `break`. -/
def train (val_losses : ℕ → ℚ) (early_stopping : Bool) (patience n_epochs : ℕ) : ℕ × Bool :=
  trainGoWith esStep val_losses early_stopping patience n_epochs 0 none 0

/-- Modelled from the spec: `MLP.train` as the claim describes it, i.e. the
same loop but with the claim's comparison `esStepSpec`. -/
def trainSpec (val_losses : ℕ → ℚ) (early_stopping : Bool) (patience n_epochs : ℕ) : ℕ × Bool :=
  trainGoWith esStepSpec val_losses early_stopping patience n_epochs 0 none 0

/-- State `(n_no_improvement, prev_val_loss)` after `k` early-stopping updates
of `esStep`, starting from the initial state; the update sequence does not
depend on the patience (the `break` only exits the loop). -/
def esState (val_losses : ℕ → ℚ) : ℕ → ℕ × Option ℚ
  | 0 => (0, none)
  | k + 1 => esStep (val_losses k) (esState val_losses k).2 (esState val_losses k).1

/-- State after `j` further `esStep` updates starting at epoch `e` in state `st`. -/
def esRun (val_losses : ℕ → ℚ) : ℕ → ℕ × Option ℚ → ℕ → ℕ × Option ℚ
  | _, st, 0 => st
  | e, st, j + 1 => esRun val_losses (e + 1) (esStep (val_losses e) st.2 st.1) j

/-! ## Embedding of `utils/visualizing_utils.py` -/

/-- Type of the entropy function `gen_utils.entropy(y_pred, axis=1)` imported
from `modeling_utils` (a repository file outside the given sources): it maps
an array of two-class probability rows to one uncertainty value per row.
It is kept abstract; the claims constrain only which argument it receives. -/
abbrev EntropyFn := List (ℚ × ℚ) → List ℚ

/-- Type of `gen_utils.platt_scale(test_probs, val_probs, val_labels)` imported
from `modeling_utils` (outside the given sources): it maps the test
positive-class probabilities, the validation positive-class probabilities
and the validation labels to calibrated test probabilities. -/
abbrev PlattFn := List ℚ → List ℚ → List ℚ → List ℚ

/-- Embeds the state of `ResultContainer` (visualizing_utils.py lines 11-20):
two `defaultdict(list)` maps from method name to the list of stored arrays,
in insertion order. -/
structure ResultContainer where
  uncertainties : String → List (List ℚ)
  predictions : String → List (List ℚ)

/-- The fresh container built by `ResultContainer.__init__`: both defaultdicts
are empty, so every key reads as the empty list. -/
def ResultContainer.start : ResultContainer := ⟨fun _ => [], fun _ => []⟩

/-- Point update of a `defaultdict`-backed map at one key. -/
def updateKey (m : String → List (List ℚ)) (k : String) (v : List (List ℚ)) :
    String → List (List ℚ) :=
  fun q => if q = k then v else m q

/-- Embeds `ResultContainer.add_results` (visualizing_utils.py lines 22-50).
In the `not calibrate` branch it appends `entropy(y_pred, axis=1)` to
`self.uncertainties[name]` and the positive-class column `y_pred[:, 1]` to
`self.predictions[name]`; in the `calibrate` branch it appends the same
entropy of the raw `y_pred` to `self.uncertainties[name]` and
`platt_scale(y_pred[:, 1], y_pred_val[:, 1], y_val)` to
`self.predictions[name]`. -/
def ResultContainer.add_results (entropy : EntropyFn) (platt_scale : PlattFn)
    (rc : ResultContainer) (y_pred : List (ℚ × ℚ)) (name : String)
    (y_pred_val : List (ℚ × ℚ)) (y_val : List ℚ) (calibrate : Bool) : ResultContainer :=
  if ¬ calibrate then
    { uncertainties := updateKey rc.uncertainties name
        (rc.uncertainties name ++ [entropy y_pred]),
      predictions := updateKey rc.predictions name
        (rc.predictions name ++ [y_pred.map Prod.snd]) }
  else
    let y_pred_calibrated :=
      platt_scale (y_pred.map Prod.snd) (y_pred_val.map Prod.snd) y_val
    { uncertainties := updateKey rc.uncertainties name
        (rc.uncertainties name ++ [entropy y_pred]),
      predictions := updateKey rc.predictions name
        (rc.predictions name ++ [y_pred_calibrated]) }

/-- Arguments of one `add_results` call. -/
structure AddCall where
  y_pred : List (ℚ × ℚ)
  name : String
  y_pred_val : List (ℚ × ℚ)
  y_val : List ℚ
  calibrate : Bool

/-- Runs a sequence of `add_results` calls on a fresh `ResultContainer`. -/
def runCalls (entropy : EntropyFn) (platt_scale : PlattFn) (calls : List AddCall) :
    ResultContainer :=
  calls.foldl
    (fun rc c => rc.add_results entropy platt_scale c.y_pred c.name c.y_pred_val
      c.y_val c.calibrate)
    ResultContainer.start

/-- The uncertainty array one call stores: `entropy(y_pred, axis=1)` of the raw
probabilities, in both branches of `add_results`. -/
def callUnc (entropy : EntropyFn) (c : AddCall) : List ℚ := entropy c.y_pred

/-- The prediction array one call stores: the Platt-scaled probabilities when
`calibrate`, otherwise the raw positive-class column. -/
def callPred (platt_scale : PlattFn) (c : AddCall) : List ℚ :=
  if c.calibrate then
    platt_scale (c.y_pred.map Prod.snd) (c.y_pred_val.map Prod.snd) c.y_val
  else c.y_pred.map Prod.snd

/-- One row of the dataframe built in `get_incremental_loss`
(visualizing_utils.py lines 211-216): columns `y_pred`,
`minimum_y_pred = min(1 - y_pred, y_pred)`, `uncertainty`, `y`. -/
structure DataPoint where
  y_pred : ℚ
  minimum_y_pred : ℚ
  uncertainty : ℚ
  y : ℚ
deriving DecidableEq, Repr

/-- Builds the per-seed dataframe rows from the three aligned arrays. -/
def makeDf (y_pred uncertainty y : List ℚ) : List DataPoint :=
  List.zipWith3 (fun p u l => ⟨p, min (1 - p) p, u, l⟩) y_pred uncertainty y

/-- Row comparison used by `df.sort_values(by='uncertainty')`. -/
def uncLE (a b : DataPoint) : Prop := a.uncertainty ≤ b.uncertainty

instance : DecidableRel uncLE :=
  fun a b => inferInstanceAs (Decidable (a.uncertainty ≤ b.uncertainty))

instance : IsTotal DataPoint uncLE :=
  ⟨fun a b => le_total a.uncertainty b.uncertainty⟩

instance : IsTrans DataPoint uncLE :=
  ⟨fun _ _ _ => le_trans⟩

/-- Embeds `df.sort_values(by='uncertainty')` (visualizing_utils.py line 221):
the rows reordered into ascending uncertainty. -/
def sortValues (df : List DataPoint) : List DataPoint :=
  List.insertionSort uncLE df

/-- Python `range(start, stop, step)` for a positive step, as a list. -/
def pyRange (start stop step : ℕ) : List ℕ :=
  List.range' start ((stop - start + step - 1) / step) step

/-- A metric passed to `get_incremental_loss`: labels and probabilities to a
scalar, called as `metric(temp['y'], temp['y_pred'])`. -/
abbrev Metric := List ℚ → List ℚ → ℚ

/-- The sorted dataframe of seed `n` (visualizing_utils.py lines 211-221). -/
def seedSorted (y_test y_pred uncertainty : List (List ℚ)) (n : ℕ) : List DataPoint :=
  sortValues (makeDf (y_pred.getD n []) (uncertainty.getD n []) (y_test.getD n []))

/-- The per-seed score list `temp_score` (visualizing_utils.py lines 218-225):
for `i in range(min_size, len(sorted_df), step_size)` the metric applied to
the first `i` rows of the sorted dataframe. -/
def seedScores (metric : Metric) (y_test y_pred uncertainty : List (List ℚ))
    (min_size step_size n : ℕ) : List ℚ :=
  (pyRange min_size (seedSorted y_test y_pred uncertainty n).length step_size).map
    (fun i =>
      metric (((seedSorted y_test y_pred uncertainty n).take i).map DataPoint.y)
        (((seedSorted y_test y_pred uncertainty n).take i).map DataPoint.y_pred))

/-- The matrix `list_of_scores` (one row per seed) for one metric. -/
def scoresMatrix (metric : Metric) (y_test y_pred uncertainty : List (List ℚ))
    (min_size step_size : ℕ) : List (List ℚ) :=
  (List.range uncertainty.length).map
    (fun n => seedScores metric y_test y_pred uncertainty min_size step_size n)

/-- Column `j` of a matrix of rows, as read by numpy along axis 0. -/
def matCol (m : List (List ℚ)) (j : ℕ) : List ℚ :=
  m.map (fun r => r.getD j 0)

/-- Mean of column `j`: numpy divides the column sum by the number of rows. -/
def colMean (m : List (List ℚ)) (j : ℕ) : ℚ :=
  (matCol m j).sum / (m.length : ℚ)

/-- Population variance of column `j` (numpy `std` with its default
`ddof = 0`): mean of the squared deviations from the column mean. -/
def colVar (m : List (List ℚ)) (j : ℕ) : ℚ :=
  ((matCol m j).map (fun x => (x - colMean m j) ^ 2)).sum / (m.length : ℚ)

/-- Embeds `np.array(list_of_scores).mean(axis=0)` (visualizing_utils.py
line 229) on a matrix with rows of equal length. -/
def npMeanAxis0 (m : List (List ℚ)) : List ℚ :=
  (List.range (m.headD []).length).map (colMean m)

/-- Embeds `np.array(list_of_scores).std(axis=0)` (visualizing_utils.py
line 230): the square root of the population variance of each column. -/
noncomputable def npStdAxis0 (m : List (List ℚ)) : List ℝ :=
  (List.range (m.headD []).length).map (fun j => Real.sqrt (colVar m j))

/-- The triple stored per metric name by `get_incremental_loss`. -/
structure MetricResult where
  xs : List ℕ
  score : List ℚ
  score_std : List ℝ

/-- The lengths of the per-seed rows `temp_score` of `list_of_scores`, one per
seed.  Each row is a map over `range(min_size, len(sorted_df), step_size)`,
so its length does not depend on the metric; `scoresMatrix_rowLengths`
below certifies these are the lengths of the actual score rows for every
metric. -/
def scoreRowLengths (y_test y_pred uncertainty : List (List ℚ))
    (min_size step_size : ℕ) : List ℕ :=
  (List.range uncertainty.length).map
    (fun n =>
      (pyRange min_size (seedSorted y_test y_pred uncertainty n).length step_size).length)

/-- Whether `np.array(list_of_scores)` is rectangular: numpy accepts the
nested list exactly when all rows have equal length; on ragged rows it
raises a `ValueError` (directly, or at `mean(axis=0)` over the resulting
object array). -/
def sameRowLengths (y_test y_pred uncertainty : List (List ℚ))
    (min_size step_size : ℕ) : Bool :=
  (scoreRowLengths y_test y_pred uncertainty min_size step_size).all
    (fun k => k = (scoreRowLengths y_test y_pred uncertainty min_size step_size).headD 0)

/-- Embeds `get_incremental_loss` (visualizing_utils.py lines 170-232).  Per
metric it collects the per-seed score rows, aggregates them with
`mean(axis=0)` and `std(axis=0)`, and stores as x-positions
`list(range(min_size, len(sorted_df), step_size))` — evaluated after the
seed loop, so `sorted_df` is the sorted dataframe of the last seed.  When a
metric is present, the Python code raises before `xs` is assigned in two
cases, both rendered as `none`: an empty seed list (`sorted_df` is unbound
and the aggregation of an empty score list fails), and per-seed score rows
of unequal lengths (`np.array(list_of_scores).mean(axis=0)` at line 229
raises a `ValueError` on the ragged rows).  With no metrics the loop body
never runs and the empty dictionaries are returned. -/
noncomputable def get_incremental_loss (y_test y_pred uncertainty : List (List ℚ))
    (metrics : List (String × Metric)) (min_size step_size : ℕ) :
    Option (List (String × MetricResult)) :=
  if !metrics.isEmpty
      && (uncertainty.isEmpty
          || !sameRowLengths y_test y_pred uncertainty min_size step_size) then none
  else
    some (metrics.map (fun nm =>
      (nm.1,
       { xs := pyRange min_size
           (seedSorted y_test y_pred uncertainty (uncertainty.length - 1)).length
           step_size,
         score := npMeanAxis0
           (scoresMatrix nm.2 y_test y_pred uncertainty min_size step_size),
         score_std := npStdAxis0
           (scoresMatrix nm.2 y_test y_pred uncertainty min_size step_size) })))

/-- Modelled from the spec: the accuracy metric handed to the analyzer by its
callers (`sklearn`, outside the given sources) — the fraction of points
whose prediction, thresholded at one half, equals the true label. -/
def accuracy (y y_pred : List ℚ) : ℚ :=
  (((y.zip y_pred).filter
      (fun pr => (if (1 : ℚ) / 2 ≤ pr.2 then (1 : ℚ) else 0) = pr.1)).length : ℚ)
    / (y.length : ℚ)

/-! ## Helper lemmas -/

lemma trainGoWith_succ (step : ℚ → Option ℚ → ℕ → ℕ × Option ℚ) (vl : ℕ → ℚ)
    (es : Bool) (p fuel e : ℕ) (prev : Option ℚ) (counter : ℕ) :
    trainGoWith step vl es p (fuel + 1) e prev counter =
      (let s : ℕ × Option ℚ := if es then step (vl e) prev counter else (counter, prev);
       if p ≤ s.1 then (1, true)
       else ((trainGoWith step vl es p fuel (e + 1) s.2 s.1).1 + 1,
             (trainGoWith step vl es p fuel (e + 1) s.2 s.1).2)) := rfl

lemma esRun_shift (vl : ℕ → ℚ) (e : ℕ) (st : ℕ × Option ℚ) (j : ℕ) :
    esRun vl e st (j + 1) = esRun vl (e + 1) (esStep (vl e) st.2 st.1) j := rfl

lemma esRun_snoc (vl : ℕ → ℚ) :
    ∀ (j e : ℕ) (st : ℕ × Option ℚ),
      esRun vl e st (j + 1) =
        esStep (vl (e + j)) (esRun vl e st j).2 (esRun vl e st j).1 := by
  intro j
  induction j with
  | zero => intro e st; simp [esRun]
  | succ j ih =>
    intro e st
    rw [esRun_shift, ih, esRun_shift]
    rw [show e + 1 + j = e + (j + 1) by omega]

lemma esState_eq_esRun (vl : ℕ → ℚ) : ∀ k, esState vl k = esRun vl 0 (0, none) k := by
  intro k
  induction k with
  | zero => rfl
  | succ k ih =>
    show esStep (vl k) (esState vl k).2 (esState vl k).1 = _
    rw [ih, esRun_snoc]
    simp

lemma trainGo_es_char (vl : ℕ → ℚ) (p : ℕ) :
    ∀ (fuel e : ℕ) (st : ℕ × Option ℚ),
      ((∀ j, j < fuel → (esRun vl e st (j + 1)).1 < p) →
        trainGoWith esStep vl true p fuel e st.2 st.1 = (fuel, false))
      ∧ (∀ k, k < fuel → p ≤ (esRun vl e st (k + 1)).1 →
          (∀ j, j < k → (esRun vl e st (j + 1)).1 < p) →
          trainGoWith esStep vl true p fuel e st.2 st.1 = (k + 1, true)) := by
  intro fuel
  induction fuel with
  | zero =>
    intro e st
    exact ⟨fun _ => rfl, fun k hk => absurd hk (Nat.not_lt_zero k)⟩
  | succ n ih =>
    intro e st
    have hrun1 : esRun vl e st 1 = esStep (vl e) st.2 st.1 := rfl
    constructor
    · intro h
      have h0 : (esStep (vl e) st.2 st.1).1 < p := by
        have := h 0 (Nat.succ_pos n); rwa [hrun1] at this
      rw [trainGoWith_succ]
      simp only [if_true]
      rw [if_neg (not_le.mpr h0)]
      have hrest := (ih (e + 1) (esStep (vl e) st.2 st.1)).1 (by
        intro j hj
        have := h (j + 1) (by omega)
        rwa [esRun_shift] at this)
      rw [hrest]
    · intro k hk hstop hmin
      cases k with
      | zero =>
        rw [trainGoWith_succ]
        simp only [if_true]
        rw [hrun1] at hstop
        rw [if_pos hstop]
      | succ k =>
        have h0 : (esStep (vl e) st.2 st.1).1 < p := by
          have := hmin 0 (Nat.succ_pos k); rwa [hrun1] at this
        rw [trainGoWith_succ]
        simp only [if_true]
        rw [if_neg (not_le.mpr h0)]
        have hrest := (ih (e + 1) (esStep (vl e) st.2 st.1)).2 k (by omega)
          (by rw [← esRun_shift]; exact hstop)
          (by intro j hj; rw [← esRun_shift]; exact hmin (j + 1) (by omega))
        rw [hrest]

lemma trainGo_no_es (vl : ℕ → ℚ) (p : ℕ) (hp : 1 ≤ p) :
    ∀ (fuel e : ℕ) (prev : Option ℚ),
      trainGoWith esStep vl false p fuel e prev 0 = (fuel, false) := by
  intro fuel
  induction fuel with
  | zero => intro e prev; rfl
  | succ n ih =>
    intro e prev
    rw [trainGoWith_succ]
    simp only [Bool.false_eq_true, if_false]
    rw [if_neg (by omega : ¬ p ≤ 0), ih]

lemma add_results_uncertainties (entropy : EntropyFn) (platt : PlattFn)
    (rc : ResultContainer) (y_pred : List (ℚ × ℚ)) (name : String)
    (ypv : List (ℚ × ℚ)) (yv : List ℚ) (cal : Bool) (q : String) :
    (rc.add_results entropy platt y_pred name ypv yv cal).uncertainties q =
      if q = name then rc.uncertainties q ++ [entropy y_pred]
      else rc.uncertainties q := by
  cases cal <;> (simp [ResultContainer.add_results, updateKey]; split <;> simp_all)

lemma add_results_predictions (entropy : EntropyFn) (platt : PlattFn)
    (rc : ResultContainer) (y_pred : List (ℚ × ℚ)) (name : String)
    (ypv : List (ℚ × ℚ)) (yv : List ℚ) (cal : Bool) (q : String) :
    (rc.add_results entropy platt y_pred name ypv yv cal).predictions q =
      if q = name then
        rc.predictions q ++
          [if cal then platt (y_pred.map Prod.snd) (ypv.map Prod.snd) yv
           else y_pred.map Prod.snd]
      else rc.predictions q := by
  cases cal <;> (simp [ResultContainer.add_results, updateKey]; split <;> simp_all)

lemma runCalls_foldl (entropy : EntropyFn) (platt : PlattFn) :
    ∀ (calls : List AddCall) (rc : ResultContainer) (q : String),
      (calls.foldl
          (fun rc c => rc.add_results entropy platt c.y_pred c.name c.y_pred_val
            c.y_val c.calibrate) rc).uncertainties q
        = rc.uncertainties q
            ++ (calls.filter (fun c => c.name = q)).map (callUnc entropy)
      ∧ (calls.foldl
          (fun rc c => rc.add_results entropy platt c.y_pred c.name c.y_pred_val
            c.y_val c.calibrate) rc).predictions q
        = rc.predictions q
            ++ (calls.filter (fun c => c.name = q)).map (callPred platt) := by
  intro calls
  induction calls with
  | nil => intro rc q; simp
  | cons c t ih =>
    intro rc q
    have hu := (ih (rc.add_results entropy platt c.y_pred c.name c.y_pred_val
      c.y_val c.calibrate) q).1
    have hp := (ih (rc.add_results entropy platt c.y_pred c.name c.y_pred_val
      c.y_val c.calibrate) q).2
    by_cases hq : c.name = q
    · constructor
      · rw [List.foldl_cons, hu, add_results_uncertainties]
        simp [hq.symm, List.filter_cons, callUnc]
      · rw [List.foldl_cons, hp, add_results_predictions]
        simp [hq.symm, List.filter_cons, callPred]
    · constructor
      · rw [List.foldl_cons, hu, add_results_uncertainties]
        have : ¬ q = c.name := fun h => hq h.symm
        simp [this, hq, List.filter_cons]
      · rw [List.foldl_cons, hp, add_results_predictions]
        have : ¬ q = c.name := fun h => hq h.symm
        simp [this, hq, List.filter_cons]

lemma mem_pyRange_bounds {a b s i : ℕ} (hs : 1 ≤ s) (h : i ∈ pyRange a b s) :
    a ≤ i ∧ i < b := by
  rw [pyRange, List.mem_range'] at h
  obtain ⟨k, hk, rfl⟩ := h
  refine ⟨by omega, ?_⟩
  have h2 : k * s + s ≤ ((b - a + s - 1) / s) * s := by
    calc k * s + s = (k + 1) * s := by ring
    _ ≤ ((b - a + s - 1) / s) * s := Nat.mul_le_mul_right _ hk
  have h1 : ((b - a + s - 1) / s) * s ≤ b - a + s - 1 := Nat.div_mul_le_self _ _
  have h3 : k * s + s ≤ b - a + s - 1 := le_trans h2 h1
  have h4 : s * k = k * s := Nat.mul_comm s k
  omega

lemma getD_map_range {α : Type} (n j : ℕ) (f : ℕ → α) (d : α) (h : j < n) :
    ((List.range n).map f).getD j d = f j := by
  rw [List.getD_eq_getElem?_getD, List.getElem?_map, List.getElem?_range h]
  rfl

lemma map_getD_range (l : List ℚ) (d : ℚ) :
    (List.range l.length).map (fun j => l.getD j d) = l := by
  induction l with
  | nil => rfl
  | cons x t ih =>
    rw [List.length_cons, List.range_succ_eq_map, List.map_cons, List.map_map]
    have hc : ((fun j => (x :: t).getD j d) ∘ Nat.succ) = fun j => t.getD j d := by
      funext j
      simp [List.getD]
    rw [hc, ih]
    rfl

lemma npMean_single (r : List ℚ) : npMeanAxis0 [r] = r := by
  have h : ∀ j, colMean [r] j = r.getD j 0 := by
    intro j
    simp [colMean, matCol]
  unfold npMeanAxis0
  simp only [List.headD]
  calc (List.range r.length).map (colMean [r])
      = (List.range r.length).map (fun j => r.getD j 0) := by
        apply List.map_congr_left
        intro j _
        exact h j
    _ = r := map_getD_range r 0

lemma makeDf_length : ∀ (p u y : List ℚ),
    (makeDf p u y).length = min (min p.length u.length) y.length := by
  intro p
  induction p with
  | nil => intro u y; simp [makeDf, List.zipWith3]
  | cons a t ih =>
    intro u y
    cases u with
    | nil => simp [makeDf, List.zipWith3]
    | cons b tu =>
      cases y with
      | nil => simp [makeDf, List.zipWith3]
      | cons c ty =>
        have := ih tu ty
        simp [makeDf, List.zipWith3] at this ⊢
        rw [this]
        omega

lemma seedSorted_length (y_test y_pred uncertainty : List (List ℚ)) (n L : ℕ)
    (h1 : (y_test.getD n []).length = L) (h2 : (y_pred.getD n []).length = L)
    (h3 : (uncertainty.getD n []).length = L) :
    (seedSorted y_test y_pred uncertainty n).length = L := by
  rw [seedSorted, sortValues, (List.perm_insertionSort uncLE _).length_eq,
    makeDf_length, h1, h2, h3]
  omega

lemma scoresMatrix_rowLengths (metric : Metric) (y_test y_pred uncertainty : List (List ℚ))
    (min_size step_size : ℕ) :
    (scoresMatrix metric y_test y_pred uncertainty min_size step_size).map List.length
      = scoreRowLengths y_test y_pred uncertainty min_size step_size := by
  simp [scoresMatrix, scoreRowLengths, seedScores, List.map_map, Function.comp_def]

lemma sameRowLengths_single (y_test y_pred : List (List ℚ)) (u : List ℚ)
    (min_size step_size : ℕ) :
    sameRowLengths y_test y_pred [u] min_size step_size = true := by
  simp [sameRowLengths, scoreRowLengths, List.range_succ]

lemma colVar_nonneg (m : List (List ℚ)) (j : ℕ) : 0 ≤ colVar m j := by
  apply div_nonneg
  · apply List.sum_nonneg
    intro x hx
    obtain ⟨a, _, rfl⟩ := List.mem_map.mp hx
    positivity
  · exact Nat.cast_nonneg _

/-! ## Claim theorems -/

/-- Claim C1, counterexample.  On the claim's own validation-loss sequence
`[0.5, 0.4, 0.4, 0.4]` with patience `2` and `n_epochs = 4`, the code runs
all four epochs and never takes the early-stopping `break`
(`train … = (4, false)`), because `val_loss > prev_val_loss` is strict: an
epoch whose loss merely equals the previous best resets the counter instead
of incrementing it.  Under the claim's comparison rule (`esStepSpec`,
"worse than or equal increments"), the same run would have stopped through
the `break` after the 4th epoch (`trainSpec … = (4, true)`). -/
theorem C1_counterexample :
    train (fun k => [(1 : ℚ) / 2, 2 / 5, 2 / 5, 2 / 5].getD k (2 / 5)) true 2 4
        = (4, false)
    ∧ trainSpec (fun k => [(1 : ℚ) / 2, 2 / 5, 2 / 5, 2 / 5].getD k (2 / 5)) true 2 4
        = (4, true) := by
  constructor
  · norm_num [train, trainGoWith, esStep]
  · norm_num [trainSpec, trainGoWith, esStepSpec]

/-- Claim C1, amended.  In `MLP.train` with early stopping enabled, an epoch
whose validation loss is strictly worse than the retained best increments
the no-improvement counter and keeps the best; an epoch whose loss is equal
to or better than the best resets the counter to zero and overwrites the
best with the current loss; training halts through the `break` at the first
epoch whose updated counter reaches `patience` and otherwise runs all
`n_epochs`; in particular, for the validation loss sequence
`[0.5, 0.4, 0.4, 0.4]` with patience 2, no early stop occurs and all four
epochs run. -/
theorem C1_early_stopping_amended :
    (∀ (loss p : ℚ) (c : ℕ), p < loss → esStep loss (some p) c = (c + 1, some p))
    ∧ (∀ (loss p : ℚ) (c : ℕ), loss ≤ p → esStep loss (some p) c = (0, some loss))
    ∧ (∀ (vl : ℕ → ℚ) (p n : ℕ),
        (∀ j, j < n → (esState vl (j + 1)).1 < p) → train vl true p n = (n, false))
    ∧ (∀ (vl : ℕ → ℚ) (p n k : ℕ), k < n → p ≤ (esState vl (k + 1)).1 →
        (∀ j, j < k → (esState vl (j + 1)).1 < p) → train vl true p n = (k + 1, true))
    ∧ train (fun k => [(1 : ℚ) / 2, 2 / 5, 2 / 5, 2 / 5].getD k (2 / 5)) true 2 4
        = (4, false) := by
  refine ⟨?_, ?_, ?_, ?_, ?_⟩
  · intro loss p c h
    simp [esStep, h]
  · intro loss p c h
    simp [esStep, not_lt.mpr h]
  · intro vl p n h
    have := (trainGo_es_char vl p n 0 (0, none)).1 (by
      intro j hj
      rw [← esState_eq_esRun]
      exact h j hj)
    exact this
  · intro vl p n k hk hstop hmin
    have := (trainGo_es_char vl p n 0 (0, none)).2 k hk
      (by rw [← esState_eq_esRun]; exact hstop)
      (by intro j hj; rw [← esState_eq_esRun]; exact hmin j hj)
    exact this
  · norm_num [train, trainGoWith, esStep]

/-- Claim C1, witness: the amended theorem applied at concrete inputs — a
strictly-worse epoch increments, an equal epoch resets and updates the
best, a run whose counter never reaches the patience executes every epoch,
and a run reaching it stops at that epoch. -/
theorem C1_early_stopping_amended_witness :
    esStep (3 / 5) (some (1 / 2)) 0 = (1, some (1 / 2))
    ∧ esStep (2 / 5) (some (2 / 5)) 3 = (0, some (2 / 5))
    ∧ train (fun _ => (1 : ℚ)) true 2 3 = (3, false)
    ∧ train (fun k => [(1 : ℚ) / 2, 3 / 5, 3 / 5].getD k (3 / 5)) true 2 3
        = (3, true) := by
  refine ⟨?_, ?_, ?_, ?_⟩
  · exact C1_early_stopping_amended.1 (3 / 5) (1 / 2) 0 (by norm_num)
  · exact C1_early_stopping_amended.2.1 (2 / 5) (2 / 5) 3 (by norm_num)
  · exact C1_early_stopping_amended.2.2.1 (fun _ => (1 : ℚ)) 2 3 (by
      intro j hj
      interval_cases j <;> norm_num [esState, esStep])
  · exact C1_early_stopping_amended.2.2.2.1
      (fun k => [(1 : ℚ) / 2, 3 / 5, 3 / 5].getD k (3 / 5)) 2 3 2 (by omega)
      (by norm_num [esState, esStep])
      (by intro j hj; interval_cases j <;> norm_num [esState, esStep])

/-- Claim C2, counterexample.  At input size 5, output size 1, an empty
hidden-layer list makes `MLPModule.__init__` fail (the unconditional
`nn.Linear(hidden_sizes[-1], output_size)` indexes an empty list), so no
model — in particular not the single linear layer from input to output the
claim promises — is produced. -/
theorem C2_counterexample :
    mlpModuleLayers [] 5 (1 / 10) 1 false = none
    ∧ mlpModuleLayers [] 5 (1 / 10) 1 false ≠ some [Layer.linear 5 1] := by
  constructor
  · rfl
  · intro h
    simp [mlpModuleLayers] at h

/-- Claim C2, amended.  For every input size, output size, dropout rate and
batch-norm flag, constructing the model with an empty hidden-layer list
fails with an index error (`hidden_sizes[-1]` on an empty list) instead of
yielding a single linear layer, while every non-empty hidden-layer list
does produce a layer stack. -/
theorem C2_empty_hidden_amended :
    (∀ (input_size : ℕ) (dr : ℚ) (output_size : ℕ) (bn : Bool),
      mlpModuleLayers [] input_size dr output_size bn = none)
    ∧ (∀ (h : ℕ) (hs : List ℕ) (input_size : ℕ) (dr : ℚ) (output_size : ℕ) (bn : Bool),
      (mlpModuleLayers (h :: hs) input_size dr output_size bn).isSome = true) := by
  constructor
  · intro input_size dr output_size bn
    rfl
  · intro h hs input_size dr output_size bn
    have hlast : ((h :: hs).getLast?).isSome = true :=
      List.getLast?_isSome.mpr (by simp)
    obtain ⟨x, hx⟩ := Option.isSome_iff_exists.mp hlast
    simp [mlpModuleLayers, hx]

/-- Claim C3, confirmed.  With class weighting enabled, `MLP.get_loss_fn`
returns positive-class weight exactly 0 for batch mean 0, exactly 1 for
batch mean 1, and `(1 - m) / m` for every other mean (so mean `1/4` gives
exactly 3); with class weighting disabled the weight is exactly 1 for every
mean.  The all-positive and all-negative branches return constants without
evaluating the quotient. -/
theorem C3_class_weight :
    (∀ m : ℚ, get_loss_fn false m = 1)
    ∧ get_loss_fn true 0 = 0
    ∧ get_loss_fn true 1 = 1
    ∧ (∀ m : ℚ, m ≠ 0 → m ≠ 1 → get_loss_fn true m = (1 - m) / m)
    ∧ get_loss_fn true (1 / 4) = 3 := by
  refine ⟨?_, rfl, rfl, ?_, by norm_num [get_loss_fn]⟩
  · intro m; rfl
  · intro m h0 h1
    simp [get_loss_fn, h0, h1]

/-- Claim C3, witness: the generic branch of the theorem applied at the batch
mean `1/4`, where the quotient evaluates to 3. -/
theorem C3_class_weight_witness :
    get_loss_fn true (1 / 4) = (1 - 1 / 4) / (1 / 4) :=
  C3_class_weight.2.2.2.1 (1 / 4) (by norm_num) (by norm_num)

/-- Claim C9, confirmed.  In `MLP.train`, when `early_stopping_patience ≥ 1`
and `early_stopping = False` the epoch loop runs exactly `n_epochs` times
with the `break` never taken (the counter stays 0), while
`early_stopping_patience = 0` makes the loop break after the first epoch
for every `early_stopping` flag and every validation loss sequence, because
`if n_no_improvement >= early_stopping_patience: break` sits outside the
early-stopping branch. -/
theorem C9_patience_loop :
    (∀ (vl : ℕ → ℚ) (p n : ℕ), 1 ≤ p → train vl false p n = (n, false))
    ∧ (∀ (vl : ℕ → ℚ) (es : Bool) (n : ℕ), 1 ≤ n → train vl es 0 n = (1, true)) := by
  constructor
  · intro vl p n hp
    exact trainGo_no_es vl p hp n 0 none
  · intro vl es n hn
    obtain ⟨m, rfl⟩ : ∃ m, n = m + 1 := ⟨n - 1, by omega⟩
    rw [train, trainGoWith_succ]
    simp [Nat.zero_le]

/-- Claim C9, witness: with patience 2 and early stopping off, five epochs all
run; with patience 0, a three-epoch run breaks after the first epoch both
with and without the early-stopping flag. -/
theorem C9_patience_loop_witness :
    train (fun _ => (1 : ℚ)) false 2 5 = (5, false)
    ∧ train (fun _ => (1 : ℚ)) true 0 3 = (1, true)
    ∧ train (fun _ => (1 : ℚ)) false 0 3 = (1, true) :=
  ⟨C9_patience_loop.1 (fun _ => (1 : ℚ)) 2 5 (by omega),
   C9_patience_loop.2 (fun _ => (1 : ℚ)) true 3 (by omega),
   C9_patience_loop.2 (fun _ => (1 : ℚ)) false 3 (by omega)⟩

/-- Claim C5, confirmed.  For the same `add_results` call, both the
`calibrate = True` and the `calibrate = False` branch store
`entropy(y_pred, axis=1)` of the raw, uncalibrated probabilities as the
uncertainty — so the stored uncertainties are invariant to the flag —
while the stored prediction is `platt_scale(y_pred[:, 1], y_pred_val[:, 1],
y_val)` exactly when `calibrate = True` and the raw positive-class column
`y_pred[:, 1]` exactly when `calibrate = False`. -/
theorem C5_calibration_invariance :
    ∀ (entropy : EntropyFn) (platt : PlattFn) (rc : ResultContainer)
      (y_pred : List (ℚ × ℚ)) (name : String) (ypv : List (ℚ × ℚ)) (yv : List ℚ),
      (rc.add_results entropy platt y_pred name ypv yv true).uncertainties
        = (rc.add_results entropy platt y_pred name ypv yv false).uncertainties
      ∧ (∀ calibrate : Bool,
          (rc.add_results entropy platt y_pred name ypv yv calibrate).uncertainties name
            = rc.uncertainties name ++ [entropy y_pred])
      ∧ (rc.add_results entropy platt y_pred name ypv yv true).predictions name
          = rc.predictions name ++ [platt (y_pred.map Prod.snd) (ypv.map Prod.snd) yv]
      ∧ (rc.add_results entropy platt y_pred name ypv yv false).predictions name
          = rc.predictions name ++ [y_pred.map Prod.snd] := by
  intro entropy platt rc y_pred name ypv yv
  refine ⟨?_, ?_, ?_, ?_⟩
  · funext q
    rw [add_results_uncertainties, add_results_uncertainties]
  · intro cal
    rw [add_results_uncertainties, if_pos rfl]
  · rw [add_results_predictions, if_pos rfl, if_pos rfl]
  · rw [add_results_predictions, if_pos rfl]
    simp

/-- Claim C6, confirmed.  After any sequence of `add_results` calls, for every
method name the stored uncertainty list and the stored prediction list have
equal length, the nth entry of each list comes from the nth call made under
that name (the uncertainty from `entropy` of that call's raw probabilities,
the prediction from that call's calibrated or raw probabilities), and every
single call appends exactly one array to each of the two lists kept under
its own name, leaving other names unchanged. -/
theorem C6_append_invariant :
    ∀ (entropy : EntropyFn) (platt : PlattFn) (calls : List AddCall) (q : String),
      ((runCalls entropy platt calls).uncertainties q).length
        = ((runCalls entropy platt calls).predictions q).length
      ∧ (runCalls entropy platt calls).uncertainties q
          = (calls.filter (fun c => c.name = q)).map (callUnc entropy)
      ∧ (runCalls entropy platt calls).predictions q
          = (calls.filter (fun c => c.name = q)).map (callPred platt)
      ∧ ∀ (c : AddCall) (rc : ResultContainer),
          ((rc.add_results entropy platt c.y_pred c.name c.y_pred_val c.y_val
              c.calibrate).uncertainties q).length
            = (rc.uncertainties q).length + (if q = c.name then 1 else 0)
          ∧ ((rc.add_results entropy platt c.y_pred c.name c.y_pred_val c.y_val
              c.calibrate).predictions q).length
            = (rc.predictions q).length + (if q = c.name then 1 else 0) := by
  intro entropy platt calls q
  have hu := (runCalls_foldl entropy platt calls ResultContainer.start q).1
  have hp := (runCalls_foldl entropy platt calls ResultContainer.start q).2
  have hstart_u : ResultContainer.start.uncertainties q = [] := rfl
  have hstart_p : ResultContainer.start.predictions q = [] := rfl
  rw [hstart_u] at hu
  rw [hstart_p] at hp
  refine ⟨?_, ?_, ?_, ?_⟩
  · simp only [runCalls]
    rw [hu, hp]
    simp
  · simp only [runCalls]
    rw [hu]
    simp
  · simp only [runCalls]
    rw [hp]
    simp
  · intro c rc
    constructor
    · rw [add_results_uncertainties]
      split <;> simp
    · rw [add_results_predictions]
      split <;> simp

/-- Claim C4, confirmed.  In each seed run of `get_incremental_loss` the points
are reordered into ascending uncertainty (a permutation of the seed's
dataframe rows, sorted by the uncertainty column), the per-seed scores are
the metric evaluated exactly on the initial segment of the `i` most-certain
points for each `i` in `range(min_size, total, step_size)`, every such `i`
is strictly below the total number of points (the full set is never
evaluated), and on a 5-point single-seed dataset with `min_size = 2`,
`step_size = 1` the x-positions are `[2, 3, 4]`. -/
theorem C4_sorted_initial_segments :
    (∀ (y_test y_pred uncertainty : List (List ℚ)) (metric : Metric)
        (min_size step_size n L : ℕ),
        1 ≤ step_size →
        (y_test.getD n []).length = L →
        (y_pred.getD n []).length = L →
        (uncertainty.getD n []).length = L →
        List.Sorted uncLE (seedSorted y_test y_pred uncertainty n)
        ∧ (seedSorted y_test y_pred uncertainty n).Perm
            (makeDf (y_pred.getD n []) (uncertainty.getD n []) (y_test.getD n []))
        ∧ seedScores metric y_test y_pred uncertainty min_size step_size n
            = (pyRange min_size L step_size).map
                (fun i =>
                  metric
                    (((seedSorted y_test y_pred uncertainty n).take i).map DataPoint.y)
                    (((seedSorted y_test y_pred uncertainty n).take i).map DataPoint.y_pred))
        ∧ (∀ i ∈ pyRange min_size L step_size, min_size ≤ i ∧ i < L))
    ∧ (∀ f : Metric,
        (get_incremental_loss [[1, 0, 1, 1, 0]] [[9/10, 1/5, 4/5, 7/10, 2/5]]
              [[1, 5, 2, 3, 4]] [("m", f)] 2 1).map
            (fun l => l.map (fun e => e.2.xs))
          = some [[2, 3, 4]]) := by
  constructor
  · intro y_test y_pred uncertainty metric min_size step_size n L hs h1 h2 h3
    have hlen := seedSorted_length y_test y_pred uncertainty n L h1 h2 h3
    refine ⟨?_, ?_, ?_, ?_⟩
    · unfold seedSorted sortValues
      exact List.sorted_insertionSort uncLE _
    · unfold seedSorted sortValues
      exact List.perm_insertionSort uncLE _
    · simp only [seedScores, hlen]
    · intro i hi
      exact mem_pyRange_bounds hs hi
  · intro f
    simp [get_incremental_loss, sameRowLengths_single, seedSorted, sortValues, makeDf,
      pyRange]
    norm_num [List.insertionSort, List.orderedInsert, uncLE]
    decide

/-- Claim C4, witness: the per-seed statement applied to a concrete aligned
3-point seed with unit step. -/
theorem C4_sorted_initial_segments_witness :
    seedScores (fun _ _ => (0 : ℚ)) [[1, 0, 1]] [[9/10, 1/5, 4/5]] [[3, 1, 2]] 2 1 0
      = (pyRange 2 3 1).map
          (fun i =>
            (fun _ _ => (0 : ℚ))
              (((seedSorted [[1, 0, 1]] [[9/10, 1/5, 4/5]] [[3, 1, 2]] 0).take i).map
                DataPoint.y)
              (((seedSorted [[1, 0, 1]] [[9/10, 1/5, 4/5]] [[3, 1, 2]] 0).take i).map
                DataPoint.y_pred))
    ∧ (∀ i ∈ pyRange 2 3 1, 2 ≤ i ∧ i < 3) := by
  have h := (C4_sorted_initial_segments.1 [[1, 0, 1]] [[9/10, 1/5, 4/5]] [[3, 1, 2]]
    (fun _ _ => (0 : ℚ)) 2 1 0 3 (by omega) (by simp) (by simp) (by simp))
  exact ⟨h.2.2.1, h.2.2.2⟩

/-- Claim C7, confirmed.  In `get_incremental_loss` the aggregated score at
each subset-size index is the arithmetic mean over seeds (the column sum
divided by the number of seed rows) and the aggregated spread is the
population standard deviation — a nonnegative value whose square is the
mean of squared deviations from that mean, with divisor the number of
seeds; for the two seed rows `[0.8, 0.9]` and `[0.6, 0.7]` the means are
`[0.7, 0.8]` and the standard deviations exactly `[0.1, 0.1]`. -/
theorem C7_mean_population_std :
    (∀ (m : List (List ℚ)) (k j : ℕ), m ≠ [] → (∀ r ∈ m, r.length = k) → j < k →
        (npMeanAxis0 m).getD j 0
            = (m.map (fun r => r.getD j 0)).sum / (m.length : ℚ)
        ∧ ((npStdAxis0 m).getD j 0) ^ 2
            = (((m.map (fun row =>
                  (row.getD j 0 - (m.map (fun r => r.getD j 0)).sum / (m.length : ℚ)) ^ 2)).sum
                / (m.length : ℚ) : ℚ) : ℝ)
        ∧ 0 ≤ (npStdAxis0 m).getD j 0)
    ∧ npMeanAxis0 [[4/5, 9/10], [3/5, 7/10]] = [7/10, 4/5]
    ∧ npStdAxis0 [[4/5, 9/10], [3/5, 7/10]] = [1/10, 1/10] := by
  refine ⟨?_, ?_, ?_⟩
  · intro m k j hm hrows hj
    obtain ⟨r0, t, rfl⟩ : ∃ r0 t, m = r0 :: t := by
      cases m with
      | nil => exact absurd rfl hm
      | cons a b => exact ⟨a, b, rfl⟩
    have hk : r0.length = k := hrows r0 (List.mem_cons_self r0 t)
    have hmean : (npMeanAxis0 (r0 :: t)).getD j 0 = colMean (r0 :: t) j := by
      simp only [npMeanAxis0, List.headD_cons, hk]
      exact getD_map_range k j (colMean (r0 :: t)) 0 hj
    have hstd : (npStdAxis0 (r0 :: t)).getD j 0 = Real.sqrt (colVar (r0 :: t) j) := by
      simp only [npStdAxis0, List.headD_cons, hk]
      exact getD_map_range k j (fun i => Real.sqrt (colVar (r0 :: t) i)) 0 hj
    have hvar : colVar (r0 :: t) j
        = ((r0 :: t).map (fun row =>
              (row.getD j 0
                - ((r0 :: t).map (fun r => r.getD j 0)).sum / ((r0 :: t).length : ℚ)) ^ 2)).sum
            / ((r0 :: t).length : ℚ) := by
      simp [colVar, colMean, matCol, List.map_map, Function.comp_def]
    refine ⟨?_, ?_, ?_⟩
    · rw [hmean]
      simp [colMean, matCol]
    · rw [hstd, Real.sq_sqrt (by exact_mod_cast colVar_nonneg (r0 :: t) j), hvar]
    · rw [hstd]
      exact Real.sqrt_nonneg _
  · norm_num [npMeanAxis0, colMean, matCol, List.range_succ]
  · have h0 : colVar [[(4 : ℚ)/5, 9/10], [3/5, 7/10]] 0 = 1/100 := by
      norm_num [colVar, colMean, matCol]
    have h1 : colVar [[(4 : ℚ)/5, 9/10], [3/5, 7/10]] 1 = 1/100 := by
      norm_num [colVar, colMean, matCol]
    norm_num [npStdAxis0, List.range_succ, h0, h1]
    rw [show (100 : ℝ) = 10 ^ 2 by norm_num, Real.sqrt_sq (by norm_num)]
    norm_num

/-- Claim C7, witness: the aggregation statement applied to the claim's
two-seed score matrix at the first subset-size index. -/
theorem C7_mean_population_std_witness :
    (npMeanAxis0 [[4/5, 9/10], [3/5, 7/10]]).getD 0 0
        = (([[4/5, 9/10], [3/5, 7/10]] : List (List ℚ)).map (fun r => r.getD 0 0)).sum
            / (([[4/5, 9/10], [3/5, 7/10]] : List (List ℚ)).length : ℚ)
    ∧ ((npStdAxis0 [[4/5, 9/10], [3/5, 7/10]]).getD 0 0) ^ 2
        = (((([[4/5, 9/10], [3/5, 7/10]] : List (List ℚ)).map (fun row =>
              (row.getD 0 0
                - (([[4/5, 9/10], [3/5, 7/10]] : List (List ℚ)).map
                    (fun r => r.getD 0 0)).sum
                  / (([[4/5, 9/10], [3/5, 7/10]] : List (List ℚ)).length : ℚ)) ^ 2)).sum
            / (([[4/5, 9/10], [3/5, 7/10]] : List (List ℚ)).length : ℚ) : ℚ) : ℝ)
    ∧ 0 ≤ (npStdAxis0 [[4/5, 9/10], [3/5, 7/10]]).getD 0 0 :=
  C7_mean_population_std.1 [[4/5, 9/10], [3/5, 7/10]] 2 0 (by simp)
    (by intro r hr; simp at hr; rcases hr with h | h <;> simp [h]) (by omega)

/-- Claim C8, confirmed.  For a single-seed input whose metric evaluates to 1
on every initial segment of the uncertainty-sorted points considered by the
loop, `get_incremental_loss` reports a score sequence that is constant at 1
at every subset size. -/
theorem C8_constant_accuracy :
    ∀ (y p u : List ℚ) (metric : Metric) (min_size step_size : ℕ) (name : String),
      (∀ i ∈ pyRange min_size (seedSorted [y] [p] [u] 0).length step_size,
          metric (((seedSorted [y] [p] [u] 0).take i).map DataPoint.y)
            (((seedSorted [y] [p] [u] 0).take i).map DataPoint.y_pred) = 1) →
      (get_incremental_loss [y] [p] [u] [(name, metric)] min_size step_size).map
          (fun l => l.map (fun e => e.2.score))
        = some
            [List.replicate
              (pyRange min_size (seedSorted [y] [p] [u] 0).length step_size).length 1] := by
  intro y p u metric min_size step_size name h
  have hmat : scoresMatrix metric [y] [p] [u] min_size step_size
      = [seedScores metric [y] [p] [u] min_size step_size 0] := by
    simp [scoresMatrix, List.range_succ]
  have hscore : seedScores metric [y] [p] [u] min_size step_size 0
      = List.replicate
          (pyRange min_size (seedSorted [y] [p] [u] 0).length step_size).length 1 := by
    rw [List.eq_replicate_iff]
    constructor
    · simp [seedScores]
    · intro b hb
      simp only [seedScores] at hb
      obtain ⟨i, hi, rfl⟩ := List.mem_map.mp hb
      exact h i hi
  simp only [get_incremental_loss, List.isEmpty_cons, sameRowLengths_single]
  simp [hmat, npMean_single, hscore]

/-- Claim C8, witness: the accuracy metric on a concrete single seed where all
three uncertainty-sorted points are predicted correctly, with
`min_size = 2`, `step_size = 1`. -/
theorem C8_constant_accuracy_witness :
    (∀ i ∈ pyRange 2 (seedSorted [[1, 1, 1]] [[9/10, 4/5, 7/10]] [[1, 2, 3]] 0).length 1,
        accuracy
          (((seedSorted [[1, 1, 1]] [[9/10, 4/5, 7/10]] [[1, 2, 3]] 0).take i).map
            DataPoint.y)
          (((seedSorted [[1, 1, 1]] [[9/10, 4/5, 7/10]] [[1, 2, 3]] 0).take i).map
            DataPoint.y_pred) = 1)
    ∧ (get_incremental_loss [[1, 1, 1]] [[9/10, 4/5, 7/10]] [[1, 2, 3]]
          [("accuracy", accuracy)] 2 1).map (fun l => l.map (fun e => e.2.score))
        = some
            [List.replicate
              (pyRange 2 (seedSorted [[1, 1, 1]] [[9/10, 4/5, 7/10]] [[1, 2, 3]] 0).length
                1).length 1] := by
  have hsorted : seedSorted [[1, 1, 1]] [[9/10, 4/5, 7/10]] [[(1 : ℚ), 2, 3]] 0
      = [⟨9/10, 1/10, 1, 1⟩, ⟨4/5, 1/5, 2, 1⟩, ⟨7/10, 3/10, 3, 1⟩] := by
    norm_num [seedSorted, sortValues, makeDf, List.zipWith3, List.insertionSort,
      List.orderedInsert, uncLE]
  have h : ∀ i ∈ pyRange 2 (seedSorted [[1, 1, 1]] [[9/10, 4/5, 7/10]] [[1, 2, 3]] 0).length 1,
      accuracy
        (((seedSorted [[1, 1, 1]] [[9/10, 4/5, 7/10]] [[1, 2, 3]] 0).take i).map DataPoint.y)
        (((seedSorted [[1, 1, 1]] [[9/10, 4/5, 7/10]] [[1, 2, 3]] 0).take i).map
          DataPoint.y_pred) = 1 := by
    rw [hsorted]
    intro i hi
    have hi2 : i = 2 := by
      have : pyRange 2 3 1 = [2] := by decide
      simp only [List.length_cons, List.length_nil] at hi
      rw [this] at hi
      simpa using hi
    subst hi2
    norm_num [accuracy, List.filter]
  exact ⟨h, C8_constant_accuracy [1, 1, 1] [9/10, 4/5, 7/10] [1, 2, 3] accuracy 2 1
    "accuracy" h⟩

/-- Claim C10, counterexample.  On a two-seed input whose first seed has 7
points and whose final seed has 5 (with `min_size = 2`, `step_size = 1`),
the per-seed score rows have lengths 5 and 3, so
`np.array(list_of_scores).mean(axis=0)` raises a `ValueError` on the ragged
rows before `xs` is assigned: `get_incremental_loss` returns no x-positions
at all, while the claim promises that the returned x-positions equal
`range(2, 5, 1) = [2, 3, 4]` for every multi-seed input. -/
theorem C10_counterexample :
    get_incremental_loss
        [[1, 0, 1, 1, 0, 1, 0], [1, 0, 1, 1, 0]]
        [[9/10, 1/5, 4/5, 7/10, 2/5, 3/5, 1/10], [9/10, 1/5, 4/5, 7/10, 2/5]]
        [[1, 2, 3, 4, 5, 6, 7], [1, 2, 3, 4, 5]]
        [("z", fun _ _ => (0 : ℚ))] 2 1 = none
    ∧ pyRange 2 5 1 = [2, 3, 4] := by
  constructor
  · rfl
  · decide

/-- Claim C10, amended.  The x-position list stored per metric is computed
after the seed loop from `len(sorted_df)`, the sorted dataframe variable
leaking out of the per-seed loop — the sorted dataframe of the final seed.
So whenever `get_incremental_loss` returns results, which (when a metric is
present) requires at least one seed and per-seed score rows of equal
length, the x-positions of every metric equal
`range(min_size, length of the final seed's arrays, step_size)`; a
multi-seed input whose seed sizes leave the score rows ragged instead makes
the aggregation raise before `xs` is assigned, so no x-positions are
returned. -/
theorem C10_xs_from_last_seed :
    (∀ (y_test y_pred uncertainty : List (List ℚ)) (metrics : List (String × Metric))
        (min_size step_size L : ℕ),
      uncertainty ≠ [] →
      sameRowLengths y_test y_pred uncertainty min_size step_size = true →
      (y_test.getD (uncertainty.length - 1) []).length = L →
      (y_pred.getD (uncertainty.length - 1) []).length = L →
      (uncertainty.getD (uncertainty.length - 1) []).length = L →
      ∃ res, get_incremental_loss y_test y_pred uncertainty metrics min_size step_size
            = some res
        ∧ res.length = metrics.length
        ∧ ∀ e ∈ res, e.2.xs = pyRange min_size L step_size)
    ∧ (∀ (y_test y_pred uncertainty : List (List ℚ)) (metrics : List (String × Metric))
        (min_size step_size : ℕ),
      metrics ≠ [] →
      sameRowLengths y_test y_pred uncertainty min_size step_size = false →
      get_incremental_loss y_test y_pred uncertainty metrics min_size step_size
        = none) := by
  constructor
  · intro y_test y_pred uncertainty metrics min_size step_size L hne hsame h1 h2 h3
    have hlen := seedSorted_length y_test y_pred uncertainty (uncertainty.length - 1) L
      h1 h2 h3
    have hempty : uncertainty.isEmpty = false := by
      cases uncertainty with
      | nil => exact absurd rfl hne
      | cons a b => rfl
    have hcond : (!metrics.isEmpty
        && (uncertainty.isEmpty
            || !sameRowLengths y_test y_pred uncertainty min_size step_size)) = false := by
      rw [hempty, hsame]
      simp
    simp only [get_incremental_loss, hcond, Bool.false_eq_true, if_false]
    refine ⟨_, rfl, by simp, ?_⟩
    intro e he
    obtain ⟨nm, hnm, rfl⟩ := List.mem_map.mp he
    show pyRange min_size (seedSorted y_test y_pred uncertainty
      (uncertainty.length - 1)).length step_size = pyRange min_size L step_size
    rw [hlen]
  · intro y_test y_pred uncertainty metrics min_size step_size hm hsame
    have hmetrics : metrics.isEmpty = false := by
      cases metrics with
      | nil => exact absurd rfl hm
      | cons a b => rfl
    have hcond : (!metrics.isEmpty
        && (uncertainty.isEmpty
            || !sameRowLengths y_test y_pred uncertainty min_size step_size)) = true := by
      rw [hmetrics, hsame]
      simp
    simp only [get_incremental_loss, hcond, if_true]

/-- Claim C10, witness.  First, a multi-seed input whose seed sizes differ
(6 points, then 5) but whose score rows agree in length (step 2 gives two
scores per seed), so results are returned and the x-positions
`range(2, 5, 2)` come from the final seed alone; second, the ragged
unit-step input with seed sizes 7 and 5, where nothing is returned. -/
theorem C10_xs_from_last_seed_witness :
    (∃ res, get_incremental_loss
          [[1, 0, 1, 1, 0, 1], [1, 0, 1, 1, 0]]
          [[9/10, 1/5, 4/5, 7/10, 2/5, 3/5], [9/10, 1/5, 4/5, 7/10, 2/5]]
          [[1, 2, 3, 4, 5, 6], [1, 2, 3, 4, 5]]
          [("z", fun _ _ => (0 : ℚ))] 2 2
          = some res
        ∧ res.length = 1
        ∧ ∀ e ∈ res, e.2.xs = pyRange 2 5 2)
    ∧ get_incremental_loss
        [[1, 0, 1, 1, 0, 1, 0], [1, 0, 1, 1, 0]]
        [[9/10, 1/5, 4/5, 7/10, 2/5, 3/5, 1/10], [9/10, 1/5, 4/5, 7/10, 2/5]]
        [[1, 2, 3, 4, 5, 6, 7], [1, 2, 3, 4, 5]]
        [("q", fun _ _ => (0 : ℚ))] 2 1 = none := by
  constructor
  · exact C10_xs_from_last_seed.1
      [[1, 0, 1, 1, 0, 1], [1, 0, 1, 1, 0]]
      [[9/10, 1/5, 4/5, 7/10, 2/5, 3/5], [9/10, 1/5, 4/5, 7/10, 2/5]]
      [[1, 2, 3, 4, 5, 6], [1, 2, 3, 4, 5]]
      [("z", fun _ _ => (0 : ℚ))] 2 2 5 (by simp) (by decide) (by simp) (by simp)
      (by simp)
  · exact C10_xs_from_last_seed.2
      [[1, 0, 1, 1, 0, 1, 0], [1, 0, 1, 1, 0]]
      [[9/10, 1/5, 4/5, 7/10, 2/5, 3/5, 1/10], [9/10, 1/5, 4/5, 7/10, 2/5]]
      [[1, 2, 3, 4, 5, 6, 7], [1, 2, 3, 4, 5]]
      [("q", fun _ _ => (0 : ℚ))] 2 1 (by simp) (by decide)

end UncTab
